import Mathlib

/-!
Verification of the `nimue` prover state (`Merlin`) against its specification.

The file embeds `src/nimue/src/merlin.rs` shallowly: the prover RNG
(`ProverRng`), the prover state (`Merlin`) and its operations `new`,
`add_units`, `public_units`, `fill_challenge_units`, `ratchet` and
`transcript` are translated from the Rust source.  The external
collaborators that the source only names — the duplex sponge (`Keccak`
and the protocol hash `H`), the SAFE layer, the `Unit` serialization
contract and the IO pattern — are modelled from the specification, as
noted on each definition.
-/

/-- Modelled from the spec: a duplex-sponge event, one of the three
operations of the DuplexSponge contract (absorb / squeeze / ratchet).
The sponge state is idealized as the journal of events applied to the
zero-initialized state, which is faithful to the contract: equal event
sequences give equal states, ratchet is one-way, absorb is injective. -/
inductive SpongeOp (U : Type) where
  | absorb (data : List U)
  | squeeze (n : Nat)
  | ratchet
deriving DecidableEq, Repr

/-- Modelled from the spec: the state of a duplex sponge over unit `U`
(DuplexSponge contract), idealized as the journal of operations applied
since `default()`. -/
structure HSponge (U : Type) where
  journal : List (SpongeOp U)
deriving DecidableEq, Repr

/-- Modelled from the spec: `absorb_unchecked` of the DuplexSponge contract. -/
def HSponge.absorbU {U : Type} (s : HSponge U) (data : List U) : HSponge U :=
  ⟨s.journal ++ [SpongeOp.absorb data]⟩

/-- Modelled from the spec: `ratchet_unchecked` of the DuplexSponge contract. -/
def HSponge.ratchetU {U : Type} (s : HSponge U) : HSponge U :=
  ⟨s.journal ++ [SpongeOp.ratchet]⟩

/-- Modelled from the spec: `squeeze_unchecked` of the DuplexSponge
contract.  The squeezed units are a function `f` of the pre-squeeze state
and the output position; the state consumes the squeeze. -/
def HSponge.squeezeU {U : Type} (f : List (SpongeOp U) → Nat → U)
    (s : HSponge U) (n : Nat) : HSponge U × List U :=
  (⟨s.journal ++ [SpongeOp.squeeze n]⟩, (List.range n).map (f s.journal))

/-- The CSPRNG sponge of the prover is a Keccak sponge over bytes
(`ProverRng.sponge : Keccak` in the source); bytes are modelled as `Nat`. -/
abbrev Keccak := HSponge Nat

/-- Modelled from the spec: a concrete stand-in for the Keccak squeeze
output — a byte valued function of the whole pre-squeeze state and the
output position (the permutation itself is an external collaborator). -/
def keccakOut (j : List (SpongeOp Nat)) (i : Nat) : Nat :=
  ((j.map (fun op =>
      match op with
      | SpongeOp.absorb d => 0 :: d.length :: d
      | SpongeOp.squeeze n => [1, n]
      | SpongeOp.ratchet => [2])).flatten).foldl
    (fun acc b => (acc * 131 + b + 1) % 18446744073709551616) (i + 97) % 256

/-- Modelled from the spec: the zero-initialized Keccak sponge (`Keccak::default()`). -/
def Keccak.defaultK : Keccak := ⟨[]⟩

/-- `squeeze_unchecked` for the Keccak byte sponge. -/
def Keccak.squeezeK (s : Keccak) (n : Nat) : Keccak × List Nat :=
  s.squeezeU keccakOut n

/-- The error type `IOPatternError` of the source.  The only kind the
core produces on a pattern mismatch is the InvalidIO kind. -/
inductive IOPatternError where
  | invalidOp
deriving DecidableEq, Repr

/-- Modelled from the spec: an `Op` of the IO pattern — `Absorb(n)`,
`Squeeze(n)`, `Ratchet` or `Hint`, with an informational label. -/
inductive Op where
  | absorbOp (n : Nat) (label : List Nat)
  | squeezeOp (n : Nat) (label : List Nat)
  | ratchetOp
  | hintOp (label : List Nat)
deriving DecidableEq, Repr

/-- Modelled from the spec: an IO pattern — a domain-separator byte
string plus an ordered list of ops. -/
structure IOPattern where
  domsep : List Nat
  ops : List Op
deriving DecidableEq, Repr

/-- Decimal ASCII digits of a count, for the op serialization grammar. -/
def natDecimal (n : Nat) : List Nat :=
  (Nat.toDigits 10 n).map Char.toNat

/-- Modelled from the spec: the optional label part of a serialized op —
empty, or the LABEL byte (0x01) followed by the label bytes. -/
def labelBytes (lbl : List Nat) : List Nat :=
  if lbl = [] then [] else 1 :: lbl

/-- Modelled from the spec: serialization of one op of the grammar —
an ASCII tag (`A`, `S`, `R`, `H`), the decimal count for absorb and
squeeze, and the optional label. -/
def opSer : Op → List Nat
  | Op.absorbOp n lbl => 65 :: (natDecimal n ++ labelBytes lbl)
  | Op.squeezeOp n lbl => 83 :: (natDecimal n ++ labelBytes lbl)
  | Op.ratchetOp => [82]
  | Op.hintOp lbl => 72 :: labelBytes lbl

/-- Modelled from the spec: `IOPattern::as_bytes()` — the canonical byte
serialization: the domain separator, then each op preceded by the SEP
byte (0x00). -/
def IOPattern.asBytes (io : IOPattern) : List Nat :=
  io.domsep ++ (io.ops.map (fun o => 0 :: opSer o)).flatten

/-- The capabilities of the protocol hash `H` and the unit type `U` that
`Merlin` is generic over: the Unit-contract serialization `write` (which
may fail, per the contract signature), the idealized squeeze output of
the protocol sponge, and the embedding of bytes into units used when the
SAFE construction absorbs the IO pattern tag. -/
structure ProtoSpec (U : Type) where
  write : List U → Option (List Nat)
  sqOut : List (SpongeOp U) → Nat → U
  fromByte : Nat → U

/-- Modelled from the spec: the SAFE state — the pattern-checking duplex
sponge: the sponge of the protocol hash plus the stack of remaining ops. -/
structure Safe (U : Type) where
  sponge : HSponge U
  stack : List Op
deriving DecidableEq, Repr

/-- Modelled from the spec: `Safe::new(io_pattern)` — fresh sponge,
absorb the pattern serialization, ratchet, copy the op list. -/
def Safe.new {U : Type} (P : ProtoSpec U) (io : IOPattern) : Safe U :=
  { sponge := (HSponge.absorbU ⟨[]⟩ (io.asBytes.map P.fromByte)).ratchetU,
    stack := io.ops }

/-- Modelled from the spec: `Safe::absorb(units)` — the head op must be
`Absorb(m)` with `m ≥ n`; the sponge absorbs, the head is decremented in
place or popped.  On a mismatch the call fails with the InvalidIO kind
and the state is returned as it was. -/
def Safe.absorb {U : Type} (s : Safe U) (input : List U) :
    Safe U × Except IOPatternError Unit :=
  match s.stack with
  | Op.absorbOp m lbl :: rest =>
    if input.length ≤ m then
      ({ sponge := s.sponge.absorbU input,
         stack := if input.length < m then
                    Op.absorbOp (m - input.length) lbl :: rest
                  else rest },
       Except.ok ())
    else (s, Except.error IOPatternError.invalidOp)
  | _ => (s, Except.error IOPatternError.invalidOp)

/-- Modelled from the spec: `Safe::squeeze(out)` — symmetric to absorb
against a `Squeeze(m)` head; returns the squeezed units. -/
def Safe.squeeze {U : Type} (P : ProtoSpec U) (s : Safe U) (n : Nat) :
    Safe U × Except IOPatternError (List U) :=
  match s.stack with
  | Op.squeezeOp m lbl :: rest =>
    if n ≤ m then
      ({ sponge := (s.sponge.squeezeU P.sqOut n).1,
         stack := if n < m then Op.squeezeOp (m - n) lbl :: rest else rest },
       Except.ok (s.sponge.squeezeU P.sqOut n).2)
    else (s, Except.error IOPatternError.invalidOp)
  | _ => (s, Except.error IOPatternError.invalidOp)

/-- Modelled from the spec: `Safe::ratchet()` — the head op must be
`Ratchet`; pop it and ratchet the sponge. -/
def Safe.ratchetS {U : Type} (s : Safe U) : Safe U × Except IOPatternError Unit :=
  match s.stack with
  | Op.ratchetOp :: rest => ({ sponge := s.sponge.ratchetU, stack := rest }, Except.ok ())
  | _ => (s, Except.error IOPatternError.invalidOp)

/-- The prover RNG of `src/nimue/src/merlin.rs`: a Keccak sponge bound to
the transcript, plus the injected OS CSRNG, modelled as a byte stream
with a read position (the `csrng: R` field of `ProverRng<R>`). -/
structure ProverRng where
  sponge : Keccak
  csrngStream : Nat → Nat
  csrngPos : Nat

/-- The bytes the OS CSRNG emits next: `len` bytes of the stream from
position `pos` (what `csrng.fill_bytes(&mut dest[..len])` writes). -/
def osDraw (stream : Nat → Nat) (pos len : Nat) : List Nat :=
  (List.range len).map (fun i => stream (pos + i))

/-- `ProverRng::fill_bytes` (merlin.rs lines 37-46): seed at most 32
bytes from the CSRNG into the head of `dest`, absorb them, fill `dest`
by squeezing the sponge, then ratchet.  The returned list is the final
content of `dest`. -/
def ProverRng.fill_bytes (r : ProverRng) (destLen : Nat) : ProverRng × List Nat :=
  let len := Nat.min destLen 32
  let seed := osDraw r.csrngStream r.csrngPos len
  let s1 := r.sponge.absorbU seed
  let so := Keccak.squeezeK s1 destLen
  (⟨so.1.ratchetU, r.csrngStream, r.csrngPos + len⟩, so.2)

/-- `ProverRng::try_fill_bytes` (merlin.rs lines 48-51): squeeze the
sponge into `dest` and return `Ok(())`.  No CSRNG draw, no absorb, no
ratchet happens here in the source. -/
def ProverRng.try_fill_bytes (r : ProverRng) (destLen : Nat) : ProverRng × List Nat :=
  let so := Keccak.squeezeK r.sponge destLen
  (⟨so.1, r.csrngStream, r.csrngPos⟩, so.2)

/-- Little-endian value of a byte list, used by `u32::from_le_bytes` /
`u64::from_le_bytes`. -/
def leVal : List Nat → Nat
  | [] => 0
  | b :: bs => b % 256 + 256 * leVal bs

/-- `ProverRng::next_u32`: fill a 4-byte buffer and read it little-endian. -/
def ProverRng.next_u32 (r : ProverRng) : ProverRng × Nat :=
  let rb := r.fill_bytes 4
  (rb.1, leVal rb.2)

/-- `ProverRng::next_u64`: fill an 8-byte buffer and read it little-endian. -/
def ProverRng.next_u64 (r : ProverRng) : ProverRng × Nat :=
  let rb := r.fill_bytes 8
  (rb.1, leVal rb.2)

/-- The prover state `Merlin` of `src/nimue/src/merlin.rs`: the RNG, the
SAFE and the growing byte transcript. -/
structure Merlin (U : Type) where
  rng : ProverRng
  safe : Safe U
  transcript : List Nat

/-- `Merlin::new(io_pattern, csrng)` (merlin.rs lines 60-72): build the
SAFE from the pattern, build the RNG from a default Keccak sponge that
absorbs `io_pattern.as_bytes()`, start with an empty transcript. -/
def Merlin.new {U : Type} (P : ProtoSpec U) (io : IOPattern)
    (stream : Nat → Nat) : Merlin U :=
  { rng := ⟨Keccak.defaultK.absorbU io.asBytes, stream, 0⟩,
    safe := Safe.new P io,
    transcript := [] }

/-- `Merlin::add_units(input)` (merlin.rs lines 127-139): record the old
transcript length, `safe.absorb(input)?`, serialize `input` onto the
transcript with `U::write` (whose `unwrap` is modelled by the outer
`Option`: `none` is the panic), then absorb the newly appended
transcript bytes into the RNG sponge.  The value on the error branch is
the state the early return leaves behind. -/
def Merlin.add_units {U : Type} (P : ProtoSpec U) (m : Merlin U)
    (input : List U) : Option (Merlin U × Except IOPatternError Unit) :=
  match m.safe.absorb input with
  | (safe1, Except.error e) => some ({ m with safe := safe1 }, Except.error e)
  | (safe1, Except.ok _) =>
    match P.write input with
    | none => none
    | some w =>
      let transcript1 := m.transcript ++ w
      some ({ rng := { m.rng with
                sponge := m.rng.sponge.absorbU (transcript1.drop m.transcript.length) },
              safe := safe1,
              transcript := transcript1 }, Except.ok ())

/-- `Merlin::ratchet()` (merlin.rs lines 143-145): just `safe.ratchet()`. -/
def Merlin.ratchetM {U : Type} (m : Merlin U) : Merlin U × Except IOPatternError Unit :=
  ({ m with safe := m.safe.ratchetS.1 }, m.safe.ratchetS.2)

/-- `Merlin::transcript()` (merlin.rs lines 180-182). -/
def Merlin.transcriptM {U : Type} (m : Merlin U) : List Nat :=
  m.transcript

/-- `Merlin::public_units(input)` (merlin.rs lines 203-208): remember
the transcript length, `add_units(input)?`, truncate the transcript back. -/
def Merlin.public_units {U : Type} (P : ProtoSpec U) (m : Merlin U)
    (input : List U) : Option (Merlin U × Except IOPatternError Unit) :=
  let len := m.transcript.length
  match m.add_units P input with
  | none => none
  | some (m1, Except.error e) => some (m1, Except.error e)
  | some (m1, Except.ok _) =>
    some ({ m1 with transcript := m1.transcript.take len }, Except.ok ())

/-- `Merlin::fill_challenge_units(output)` (merlin.rs lines 211-213):
just `safe.squeeze(output)`; the squeezed units are returned in `ok`. -/
def Merlin.fill_challenge_units {U : Type} (P : ProtoSpec U) (m : Merlin U)
    (n : Nat) : Merlin U × Except IOPatternError (List U) :=
  ({ m with safe := (m.safe.squeeze P n).1 }, (m.safe.squeeze P n).2)

/-- The 32-bit little-endian length prefix of a hint blob. -/
def le32 (n : Nat) : List Nat :=
  [n % 256, n / 256 % 256, n / 65536 % 256, n / 16777216 % 256]

/-- Modelled from the spec: `Merlin::hint(bytes)` of the typed layer
(not part of the shown source) — the head op must be `Hint`; pop it and
append a 32-bit little-endian length prefix plus the blob to the
transcript; the SAFE sponge is untouched. -/
def Merlin.hintM {U : Type} (m : Merlin U) (blob : List Nat) :
    Merlin U × Except IOPatternError Unit :=
  match m.safe.stack with
  | Op.hintOp _ :: rest =>
    ({ m with
        safe := { sponge := m.safe.sponge, stack := rest },
        transcript := m.transcript ++ (le32 blob.length ++ blob) },
     Except.ok ())
  | _ => (m, Except.error IOPatternError.invalidOp)

/-- One prover-side operation of the public `Merlin` interface, for
reasoning about whole runs. -/
inductive MAct (U : Type) where
  | addU (input : List U)
  | pubU (input : List U)
  | chal (n : Nat)
  | ratchetStep
  | hintStep (blob : List Nat)
  | rngFill (n : Nat)

/-- Run a list of operations against a prover state, collecting the
outputs of the RNG calls.  `none` is a panic; `Except.error` is the
first operation failure. -/
def runActs {U : Type} (P : ProtoSpec U) :
    List (MAct U) → Merlin U → Option (Except IOPatternError (Merlin U × List (List Nat)))
  | [], m => some (Except.ok (m, []))
  | MAct.addU x :: rest, m =>
    match m.add_units P x with
    | none => none
    | some (_, Except.error e) => some (Except.error e)
    | some (m1, Except.ok _) => runActs P rest m1
  | MAct.pubU x :: rest, m =>
    match m.public_units P x with
    | none => none
    | some (_, Except.error e) => some (Except.error e)
    | some (m1, Except.ok _) => runActs P rest m1
  | MAct.chal n :: rest, m =>
    match m.fill_challenge_units P n with
    | (_, Except.error e) => some (Except.error e)
    | (m1, Except.ok _) => runActs P rest m1
  | MAct.ratchetStep :: rest, m =>
    match m.ratchetM with
    | (_, Except.error e) => some (Except.error e)
    | (m1, Except.ok _) => runActs P rest m1
  | MAct.hintStep b :: rest, m =>
    match m.hintM b with
    | (_, Except.error e) => some (Except.error e)
    | (m1, Except.ok _) => runActs P rest m1
  | MAct.rngFill n :: rest, m =>
    match runActs P rest { m with rng := (m.rng.fill_bytes n).1 } with
    | none => none
    | some (Except.error e) => some (Except.error e)
    | some (Except.ok (mf, outs)) => some (Except.ok (mf, (m.rng.fill_bytes n).2 :: outs))

/-- The bytes a list of operations contributes to the transcript: the
Unit-contract serializations of the `add_units` inputs and the
length-prefixed hint blobs, in call order, and nothing else.  `none`
when some serialization fails. -/
def transcriptContrib {U : Type} (P : ProtoSpec U) : List (MAct U) → Option (List Nat)
  | [] => some []
  | MAct.addU x :: rest =>
    match P.write x, transcriptContrib P rest with
    | some w, some cs => some (w ++ cs)
    | _, _ => none
  | MAct.hintStep b :: rest =>
    match transcriptContrib P rest with
    | some cs => some (le32 b.length ++ b ++ cs)
    | none => none
  | MAct.pubU _ :: rest => transcriptContrib P rest
  | MAct.chal _ :: rest => transcriptContrib P rest
  | MAct.ratchetStep :: rest => transcriptContrib P rest
  | MAct.rngFill _ :: rest => transcriptContrib P rest

/-- A concrete all-zero OS-randomness stream, for witnesses. -/
def zstream : Nat → Nat := fun _ => 0

/-- A second stream, pointwise equal to `zstream` but not syntactically
identical. -/
def zstream2 : Nat → Nat := fun i => i * 0

/-- The byte instantiation of the protocol capabilities: units are
bytes, the Unit-contract write is the identity, challenges come from
the modelled Keccak output. -/
def bspec : ProtoSpec Nat where
  write xs := some xs
  sqOut := keccakOut
  fromByte b := b

/-- A protocol-capability bundle whose write always fails, exercising
the panic branch of `add_units`. -/
def fspec : ProtoSpec Nat where
  write _ := none
  sqOut := keccakOut
  fromByte b := b

/-- A small IO pattern: absorb 4, squeeze 2, ratchet. -/
def tio : IOPattern := ⟨[78], [Op.absorbOp 4 [], Op.squeezeOp 2 [], Op.ratchetOp]⟩

/-- An IO pattern with a different serialization than `tio`. -/
def tio2 : IOPattern := ⟨[79], [Op.absorbOp 4 []]⟩

/-- An IO pattern that only absorbs. -/
def tio4 : IOPattern := ⟨[77], [Op.absorbOp 4 []]⟩

/-- An IO pattern that starts with a squeeze. -/
def tioSq : IOPattern := ⟨[81], [Op.squeezeOp 2 [], Op.ratchetOp]⟩

/-- An IO pattern that starts with a ratchet. -/
def tioR : IOPattern := ⟨[82], [Op.ratchetOp]⟩

/-- A fresh prover over `tio`. -/
def m0 : Merlin Nat := Merlin.new bspec tio zstream

/-- A fresh prover over `tio4`. -/
def mC4 : Merlin Nat := Merlin.new bspec tio4 zstream

/-- A fresh prover over `tioSq`. -/
def mSq : Merlin Nat := Merlin.new bspec tioSq zstream

/-- A fresh prover over `tioR`. -/
def mR : Merlin Nat := Merlin.new bspec tioR zstream

/-- A fresh prover RNG with an empty sponge journal. -/
def rng0 : ProverRng := ⟨Keccak.defaultK, zstream, 0⟩

/-- The SAFE sponge right after `Safe.new bspec tio`. -/
def spInitTio : HSponge Nat :=
  (HSponge.absorbU ⟨[]⟩ (tio.asBytes.map bspec.fromByte)).ratchetU

/-- The SAFE state after `m0` absorbs two units. -/
def s1C6 : Safe Nat :=
  { sponge := spInitTio.absorbU [1, 2],
    stack := [Op.absorbOp 2 [], Op.squeezeOp 2 [], Op.ratchetOp] }

/-- The prover state after `m0` runs `add_units [1, 2]`. -/
def mf5 : Merlin Nat :=
  { rng := { sponge := (Keccak.defaultK.absorbU tio.asBytes).absorbU [1, 2],
             csrngStream := zstream, csrngPos := 0 },
    safe := s1C6,
    transcript := [1, 2] }

/-- The SAFE sponge right after `Safe.new bspec tio4`. -/
def spInit4 : HSponge Nat :=
  (HSponge.absorbU ⟨[]⟩ (tio4.asBytes.map bspec.fromByte)).ratchetU

/-- The CSPRNG sponge right after `Merlin.new bspec tio4`. -/
def rngInit4 : Keccak := Keccak.defaultK.absorbU tio4.asBytes

/-- `mC4` after `add_units [1]`. -/
def n1w : Merlin Nat :=
  { rng := { sponge := rngInit4.absorbU [1], csrngStream := zstream, csrngPos := 0 },
    safe := { sponge := spInit4.absorbU [1], stack := [Op.absorbOp 3 []] },
    transcript := [1] }

/-- `mC4` after `public_units [1]`. -/
def m1w : Merlin Nat :=
  { rng := { sponge := rngInit4.absorbU [1], csrngStream := zstream, csrngPos := 0 },
    safe := { sponge := spInit4.absorbU [1], stack := [Op.absorbOp 3 []] },
    transcript := [] }

/-- `m1w` after `add_units [2]`. -/
def m2w : Merlin Nat :=
  { rng := { sponge := (rngInit4.absorbU [1]).absorbU [2], csrngStream := zstream, csrngPos := 0 },
    safe := { sponge := (spInit4.absorbU [1]).absorbU [2], stack := [Op.absorbOp 2 []] },
    transcript := [2] }

/-- `n1w` after `add_units [2]`. -/
def n2w : Merlin Nat :=
  { rng := { sponge := (rngInit4.absorbU [1]).absorbU [2], csrngStream := zstream, csrngPos := 0 },
    safe := { sponge := (spInit4.absorbU [1]).absorbU [2], stack := [Op.absorbOp 2 []] },
    transcript := [1, 2] }

/-- The units `mSq` squeezes on its first challenge of length 2. -/
def outC9 : List Nat := (List.range 2).map (keccakOut mSq.safe.sponge.journal)

/-- A failed `Safe.absorb` leaves the SAFE state as it was. -/
theorem safe_absorb_err_fst {U : Type} (s : Safe U) (input : List U) (e : IOPatternError)
    (h : (s.absorb input).2 = Except.error e) : (s.absorb input).1 = s := by
  rcases s with ⟨sp, stack⟩
  cases stack with
  | nil => rfl
  | cons op rest =>
    cases op with
    | absorbOp m lbl =>
      by_cases hle : input.length ≤ m
      · exfalso
        simp [Safe.absorb, hle] at h
      · simp [Safe.absorb, hle]
    | squeezeOp m lbl => rfl
    | ratchetOp => rfl
    | hintOp lbl => rfl

/-- The successful branch of `add_units`, in closed form: the SAFE
absorbs the units, the serialization lands on the transcript, and the
CSPRNG sponge absorbs exactly those appended bytes. -/
theorem add_units_eq_ok {U : Type} (P : ProtoSpec U) (m : Merlin U) (input : List U)
    (s1 : Safe U) (w : List Nat)
    (ha : m.safe.absorb input = (s1, Except.ok ()))
    (hw : P.write input = some w) :
    m.add_units P input =
      some ({ rng := { sponge := m.rng.sponge.absorbU w,
                       csrngStream := m.rng.csrngStream,
                       csrngPos := m.rng.csrngPos },
              safe := s1, transcript := m.transcript ++ w }, Except.ok ()) := by
  unfold Merlin.add_units
  rw [ha, hw]
  simp [List.drop_left]

/-- Inversion of a successful `add_units`. -/
theorem add_units_ok_elim {U : Type} (P : ProtoSpec U) (m m' : Merlin U) (input : List U)
    (h : m.add_units P input = some (m', Except.ok ())) :
    ∃ s1 w, m.safe.absorb input = (s1, Except.ok ()) ∧ P.write input = some w ∧
      m' = { rng := { sponge := m.rng.sponge.absorbU w,
                      csrngStream := m.rng.csrngStream,
                      csrngPos := m.rng.csrngPos },
             safe := s1, transcript := m.transcript ++ w } := by
  rcases ha : m.safe.absorb input with ⟨s1, r⟩
  cases r with
  | error e =>
    exfalso
    unfold Merlin.add_units at h
    rw [ha] at h
    simp at h
  | ok u =>
    cases u
    cases hw : P.write input with
    | none =>
      exfalso
      unfold Merlin.add_units at h
      rw [ha, hw] at h
      simp at h
    | some w =>
      refine ⟨s1, w, rfl, rfl, ?_⟩
      have heq := (add_units_eq_ok P m input s1 w ha hw).symm.trans h
      simp only [Option.some.injEq, Prod.mk.injEq] at heq
      exact heq.1.symm

/-- Inversion of a failed `add_units`: the early return leaves the
transcript and the RNG as they were. -/
theorem add_units_err_elim {U : Type} (P : ProtoSpec U) (m m' : Merlin U) (input : List U)
    (e : IOPatternError)
    (h : m.add_units P input = some (m', Except.error e)) :
    m' = { m with safe := (m.safe.absorb input).1 } := by
  unfold Merlin.add_units at h
  rcases ha : m.safe.absorb input with ⟨s1, r⟩
  rw [ha] at h
  cases r with
  | error e2 =>
    simp only [Option.some.injEq, Prod.mk.injEq] at h
    rw [← h.1]
  | ok u =>
    cases hw : P.write input with
    | none => rw [hw] at h; simp at h
    | some w => rw [hw] at h; simp at h

/-- Inversion of a successful `public_units`: it is `add_units` with the
transcript truncated back. -/
theorem public_units_ok_elim {U : Type} (P : ProtoSpec U) (m m' : Merlin U) (input : List U)
    (h : m.public_units P input = some (m', Except.ok ())) :
    ∃ n1, m.add_units P input = some (n1, Except.ok ()) ∧
      m' = { n1 with transcript := n1.transcript.take m.transcript.length } := by
  unfold Merlin.public_units at h
  rcases hu : m.add_units P input with _ | ⟨m1, r⟩
  · rw [hu] at h; simp at h
  · rw [hu] at h
    cases r with
    | error e => simp at h
    | ok u =>
      cases u
      simp only [Option.some.injEq, Prod.mk.injEq] at h
      exact ⟨m1, rfl, h.1.symm⟩

/-- Inversion of a failed `public_units`: it is exactly a failed `add_units`. -/
theorem public_units_err_elim {U : Type} (P : ProtoSpec U) (m m' : Merlin U) (input : List U)
    (e : IOPatternError)
    (h : m.public_units P input = some (m', Except.error e)) :
    m.add_units P input = some (m', Except.error e) := by
  unfold Merlin.public_units at h
  rcases hu : m.add_units P input with _ | ⟨m1, r⟩
  · rw [hu] at h; simp at h
  · rw [hu] at h
    cases r with
    | error e2 =>
      simp only [Option.some.injEq, Prod.mk.injEq] at h
      cases e; cases e2
      rw [h.1]
    | ok u => cases u; simp at h

/-- Inversion of a successful `hintM`: the transcript grows by the
length-prefixed blob and the RNG is untouched. -/
theorem hintM_ok_elim {U : Type} (m m' : Merlin U) (b : List Nat) (u : Unit)
    (h : m.hintM b = (m', Except.ok u)) :
    m'.transcript = m.transcript ++ (le32 b.length ++ b) ∧ m'.rng = m.rng := by
  unfold Merlin.hintM at h
  rcases hs : m.safe.stack with _ | ⟨op, rest⟩
  · rw [hs] at h; simp at h
  · rw [hs] at h
    cases op with
    | absorbOp n lbl => simp at h
    | squeezeOp n lbl => simp at h
    | ratchetOp => simp at h
    | hintOp lbl =>
      simp only [Prod.mk.injEq] at h
      rw [← h.1]
      exact ⟨rfl, rfl⟩

/-- The transcript after a successful run grows by exactly the
contributions of the operations, in call order. -/
theorem runActs_transcript {U : Type} (P : ProtoSpec U) (acts : List (MAct U)) :
    ∀ (m mf : Merlin U) (outs : List (List Nat)),
      runActs P acts m = some (Except.ok (mf, outs)) →
      ∃ cs, transcriptContrib P acts = some cs ∧ mf.transcript = m.transcript ++ cs := by
  induction acts with
  | nil =>
    intro m mf outs h
    simp only [runActs, Option.some.injEq, Except.ok.injEq, Prod.mk.injEq] at h
    refine ⟨[], rfl, ?_⟩
    rw [← h.1]
    simp
  | cons a rest ih =>
    intro m mf outs h
    cases a with
    | addU x =>
      simp only [runActs] at h
      rcases hu : m.add_units P x with _ | ⟨m1, r⟩ <;> rw [hu] at h
      · simp at h
      · cases r with
        | error e => simp at h
        | ok u =>
          cases u
          simp only [] at h
          obtain ⟨cs, hcs, htr⟩ := ih m1 mf outs h
          obtain ⟨s1, w, ha, hw, hm1⟩ := add_units_ok_elim P m m1 x hu
          refine ⟨w ++ cs, ?_, ?_⟩
          · simp only [transcriptContrib, hw, hcs]
          · rw [htr, hm1]
            simp
    | pubU x =>
      simp only [runActs] at h
      rcases hu : m.public_units P x with _ | ⟨m1, r⟩ <;> rw [hu] at h
      · simp at h
      · cases r with
        | error e => simp at h
        | ok u =>
          cases u
          simp only [] at h
          obtain ⟨cs, hcs, htr⟩ := ih m1 mf outs h
          obtain ⟨n1, hadd, hm1⟩ := public_units_ok_elim P m m1 x hu
          obtain ⟨s1, w, ha, hw, hn1⟩ := add_units_ok_elim P m n1 x hadd
          refine ⟨cs, ?_, ?_⟩
          · simp only [transcriptContrib, hcs]
          · rw [htr, hm1, hn1]
            simp [List.take_left]
    | chal n =>
      simp only [runActs, Merlin.fill_challenge_units] at h
      rcases hr : (m.safe.squeeze P n).2 with e | out1 <;> rw [hr] at h
      · simp at h
      · simp only [] at h
        obtain ⟨cs, hcs, htr⟩ := ih _ mf outs h
        exact ⟨cs, by simpa [transcriptContrib] using hcs, by simpa using htr⟩
    | ratchetStep =>
      simp only [runActs, Merlin.ratchetM] at h
      rcases hr : (m.safe.ratchetS).2 with e | u <;> rw [hr] at h
      · simp at h
      · simp only [] at h
        obtain ⟨cs, hcs, htr⟩ := ih _ mf outs h
        exact ⟨cs, by simpa [transcriptContrib] using hcs, by simpa using htr⟩
    | hintStep b =>
      simp only [runActs] at h
      rcases hh : m.hintM b with ⟨m1, r⟩
      rw [hh] at h
      cases r with
      | error e => simp at h
      | ok u =>
        simp only [] at h
        obtain ⟨cs, hcs, htr⟩ := ih m1 mf outs h
        obtain ⟨ht, _⟩ := hintM_ok_elim m m1 b u hh
        refine ⟨le32 b.length ++ b ++ cs, ?_, ?_⟩
        · simp only [transcriptContrib, hcs]
        · rw [htr, ht]
          simp
    | rngFill n =>
      simp only [runActs] at h
      rcases hrr : runActs P rest { m with rng := (m.rng.fill_bytes n).1 } with _ | r2 <;>
        rw [hrr] at h
      · simp at h
      · cases r2 with
        | error e => simp at h
        | ok p =>
          rcases p with ⟨mf1, outs1⟩
          simp only [Option.some.injEq, Except.ok.injEq, Prod.mk.injEq] at h
          obtain ⟨cs, hcs, htr⟩ := ih _ mf1 outs1 hrr
          refine ⟨cs, by simpa [transcriptContrib] using hcs, ?_⟩
          rw [← h.1, htr]

/-- Claim C1: for every destination buffer, `ProverRng::fill_bytes`
draws `min(len, 32)` OS-CSRNG bytes, absorbs exactly those drawn bytes
into the CSPRNG sponge, squeezes `len` bytes over the whole buffer
(overwriting the drawn bytes), then ratchets the sponge — in that
order, advancing the OS stream by the drawn amount. -/
theorem C1_fill_bytes_steps (r : ProverRng) (destLen : Nat) :
    (r.fill_bytes destLen).1.sponge.journal =
      r.sponge.journal ++
        [SpongeOp.absorb (osDraw r.csrngStream r.csrngPos (Nat.min destLen 32)),
         SpongeOp.squeeze destLen, SpongeOp.ratchet] ∧
    (r.fill_bytes destLen).2 =
      (List.range destLen).map
        (keccakOut (r.sponge.journal ++
          [SpongeOp.absorb (osDraw r.csrngStream r.csrngPos (Nat.min destLen 32))])) ∧
    (r.fill_bytes destLen).2.length = destLen ∧
    (r.fill_bytes destLen).1.csrngStream = r.csrngStream ∧
    (r.fill_bytes destLen).1.csrngPos = r.csrngPos + Nat.min destLen 32 := by
  refine ⟨?_, ?_, ?_, rfl, rfl⟩ <;>
    simp [ProverRng.fill_bytes, HSponge.absorbU, Keccak.squeezeK, HSponge.squeezeU,
      HSponge.ratchetU]

/-- Claim C2 (code bug): the claim — and the doc comment on the source
(`merlin.rs` line 15) — say the CSPRNG sponge is ratcheted after each
use through the `RngCore` interface, but `try_fill_bytes` only squeezes:
no OS draw, no absorb, and no ratchet reaches the sponge, while
`fill_bytes` on the same state does end in a ratchet. -/
theorem C2_try_fill_bytes_no_ratchet :
    (rng0.try_fill_bytes 8).1.sponge.journal = [SpongeOp.squeeze 8] ∧
    SpongeOp.ratchet ∉ (rng0.try_fill_bytes 8).1.sponge.journal ∧
    (rng0.try_fill_bytes 8).1.csrngPos = rng0.csrngPos ∧
    (rng0.fill_bytes 8).1.sponge.journal =
      [SpongeOp.absorb (osDraw zstream 0 8), SpongeOp.squeeze 8, SpongeOp.ratchet] :=
  ⟨rfl, by decide, rfl, rfl⟩

/-- Claim C3: `add_units` never panics — for every `Unit` instance
whose write into a growable byte buffer always succeeds, the call
returns `some` result (an `Ok` or an `IOPatternError`), so the `unwrap`
on the serialization is unreachable. -/
theorem C3_add_units_no_panic {U : Type} (P : ProtoSpec U) (m : Merlin U) (input : List U)
    (hw : ∀ xs : List U, (P.write xs).isSome) :
    (m.add_units P input).isSome := by
  unfold Merlin.add_units
  rcases ha : m.safe.absorb input with ⟨s1, r⟩
  cases r with
  | error e => simp
  | ok u =>
    cases hww : P.write input with
    | none => exact absurd (hw input) (by simp [hww])
    | some w => simp

/-- Witness for C3 at the byte instantiation, whose write is total. -/
theorem C3_witness :
    (∀ xs : List Nat, (bspec.write xs).isSome) ∧ (m0.add_units bspec [1, 2, 3]).isSome :=
  ⟨fun _ => rfl, C3_add_units_no_panic bspec m0 [1, 2, 3] (fun _ => rfl)⟩

/-- Claim C4: `public_units(x); add_units(y)` yields the same SAFE and
the same CSPRNG state as `add_units(x); add_units(y)`, while its
transcript grows only by the serialization of `y` — equal to the
transcript `add_units(y)` alone would have produced from the start
state. -/
theorem C4_public_vs_add {U : Type} (P : ProtoSpec U) (m m1 m2 n1 n2 : Merlin U)
    (x y : List U)
    (h1 : m.public_units P x = some (m1, Except.ok ()))
    (h2 : m1.add_units P y = some (m2, Except.ok ()))
    (h3 : m.add_units P x = some (n1, Except.ok ()))
    (h4 : n1.add_units P y = some (n2, Except.ok ())) :
    m2.safe = n2.safe ∧ m2.rng = n2.rng ∧
    (∃ wy, P.write y = some wy ∧ m2.transcript = m.transcript ++ wy) ∧
    (∀ q : Merlin U, m.add_units P y = some (q, Except.ok ()) →
      q.transcript = m2.transcript) := by
  obtain ⟨n1a, hadd, hm1⟩ := public_units_ok_elim P m m1 x h1
  have hn1a : n1a = n1 := by
    have h5 := hadd.symm.trans h3
    simp only [Option.some.injEq, Prod.mk.injEq] at h5
    exact h5.1
  subst hn1a
  obtain ⟨sx, wx, hax, hwx, hn1⟩ := add_units_ok_elim P m n1a x hadd
  have hm1t : m1.transcript = m.transcript := by
    rw [hm1, hn1]
    simp [List.take_left]
  have hm1s : m1.safe = n1a.safe := by rw [hm1]
  have hm1r : m1.rng = n1a.rng := by rw [hm1]
  obtain ⟨sy, wy, hay, hwy, hm2⟩ := add_units_ok_elim P m1 m2 y h2
  obtain ⟨sy2, wy2, hay2, hwy2, hn2⟩ := add_units_ok_elim P n1a n2 y h4
  have hsy : sy2 = sy := by
    have h6 : n1a.safe.absorb y = (sy, Except.ok ()) := by rw [← hm1s]; exact hay
    have h7 := h6.symm.trans hay2
    simp only [Prod.mk.injEq] at h7
    exact h7.1.symm
  have hwy3 : wy2 = wy := by
    have h8 := hwy.symm.trans hwy2
    simp only [Option.some.injEq] at h8
    exact h8.symm
  refine ⟨?_, ?_, ⟨wy, hwy, ?_⟩, ?_⟩
  · rw [hm2, hn2, hsy]
  · rw [hm2, hn2, hwy3, hm1r]
  · rw [hm2]
    show m1.transcript ++ wy = m.transcript ++ wy
    rw [hm1t]
  · intro q hq
    obtain ⟨sq, wq, haq, hwq, hqe⟩ := add_units_ok_elim P m q y hq
    have hwq2 : wq = wy := by
      have h9 := hwq.symm.trans hwy
      simp only [Option.some.injEq] at h9
      exact h9
    rw [hqe, hm2]
    show m.transcript ++ wq = m1.transcript ++ wy
    rw [hwq2, hm1t]

/-- Witness for C4 on a 4-unit absorb pattern with `x = [1]`, `y = [2]`. -/
theorem C4_witness :
    mC4.public_units bspec [1] = some (m1w, Except.ok ()) ∧
    m1w.add_units bspec [2] = some (m2w, Except.ok ()) ∧
    mC4.add_units bspec [1] = some (n1w, Except.ok ()) ∧
    n1w.add_units bspec [2] = some (n2w, Except.ok ()) ∧
    (m2w.safe = n2w.safe ∧ m2w.rng = n2w.rng ∧
      (∃ wy, bspec.write [2] = some wy ∧ m2w.transcript = mC4.transcript ++ wy) ∧
      (∀ q : Merlin Nat, mC4.add_units bspec [2] = some (q, Except.ok ()) →
        q.transcript = m2w.transcript)) :=
  ⟨rfl, rfl, rfl, rfl,
    C4_public_vs_add bspec mC4 m1w m2w n1w n2w [1] [2] rfl rfl rfl rfl⟩

/-- Claim C5: after any successful run from a fresh prover, the
transcript is exactly the concatenation, in call order, of the
Unit-contract serializations of the `add_units` inputs and the
length-prefixed hint blobs, with no framing and no contribution from
`public_units`, `fill_challenge_units` or `ratchet`. -/
theorem C5_transcript_is_concat {U : Type} (P : ProtoSpec U) (io : IOPattern)
    (stream : Nat → Nat) (acts : List (MAct U)) (mf : Merlin U) (outs : List (List Nat))
    (h : runActs P acts (Merlin.new P io stream) = some (Except.ok (mf, outs))) :
    ∃ cs, transcriptContrib P acts = some cs ∧ mf.transcriptM = cs := by
  obtain ⟨cs, hcs, htr⟩ := runActs_transcript P acts (Merlin.new P io stream) mf outs h
  refine ⟨cs, hcs, ?_⟩
  rw [Merlin.transcriptM, htr]
  show ([] : List Nat) ++ cs = cs
  simp

/-- Witness for C5: a one-absorb run over `tio`. -/
theorem C5_witness :
    runActs bspec [MAct.addU [1, 2]] (Merlin.new bspec tio zstream) =
      some (Except.ok (mf5, [])) ∧
    (∃ cs, transcriptContrib bspec [MAct.addU [1, 2]] = some cs ∧ mf5.transcriptM = cs) :=
  ⟨rfl, C5_transcript_is_concat bspec tio zstream [MAct.addU [1, 2]] mf5 [] rfl⟩

/-- Claim C6: a successful `add_units(input)` performs exactly:
`Safe.absorb input`, then appends the Unit-contract serialization of
`input` to the transcript, then absorbs into the CSPRNG sponge exactly
those appended bytes (not the raw units) — and nothing else changes. -/
theorem C6_add_units_effect {U : Type} (P : ProtoSpec U) (m : Merlin U) (input : List U)
    (s1 : Safe U) (w : List Nat)
    (ha : m.safe.absorb input = (s1, Except.ok ()))
    (hw : P.write input = some w) :
    m.add_units P input =
      some ({ rng := { sponge := m.rng.sponge.absorbU w,
                       csrngStream := m.rng.csrngStream,
                       csrngPos := m.rng.csrngPos },
              safe := s1, transcript := m.transcript ++ w }, Except.ok ()) :=
  add_units_eq_ok P m input s1 w ha hw

/-- Witness for C6 on `m0` with two units. -/
theorem C6_witness :
    m0.safe.absorb [1, 2] = (s1C6, Except.ok ()) ∧
    bspec.write [1, 2] = some [1, 2] ∧
    m0.add_units bspec [1, 2] =
      some ({ rng := { sponge := m0.rng.sponge.absorbU [1, 2],
                       csrngStream := m0.rng.csrngStream,
                       csrngPos := m0.rng.csrngPos },
              safe := s1C6, transcript := m0.transcript ++ [1, 2] }, Except.ok ()) :=
  ⟨rfl, rfl, C6_add_units_effect bspec m0 [1, 2] s1C6 [1, 2] rfl rfl⟩

/-- Claim C7: two provers built from the same IO pattern whose injected
OS-randomness sources produce identical byte streams and that run the
same operations on the same inputs produce identical results — the same
final state, the same transcript and the same CSPRNG outputs at every
step; the OS CSRNG is the prover's only nondeterminism. -/
theorem C7_determinism {U : Type} (P : ProtoSpec U) (io : IOPattern) (acts : List (MAct U))
    (s1 s2 : Nat → Nat) (h : ∀ i, s1 i = s2 i) :
    runActs P acts (Merlin.new P io s1) = runActs P acts (Merlin.new P io s2) := by
  rw [funext h]

/-- Witness for C7 with two pointwise-equal all-zero streams. -/
theorem C7_witness :
    (∀ i, zstream i = zstream2 i) ∧
    runActs bspec [MAct.rngFill 4, MAct.addU [1, 2]] (Merlin.new bspec tio zstream) =
      runActs bspec [MAct.rngFill 4, MAct.addU [1, 2]] (Merlin.new bspec tio zstream2) :=
  ⟨fun i => (Nat.mul_zero i).symm,
    C7_determinism bspec tio [MAct.rngFill 4, MAct.addU [1, 2]] zstream zstream2
      (fun i => (Nat.mul_zero i).symm)⟩

/-- Claim C8: at construction the CSPRNG sponge is a fresh default
Keccak sponge — independent of the protocol hash — that absorbs the IO
pattern serialization (which begins with the domain separator) before
any use; patterns with different serializations give different CSPRNG
states. -/
theorem C8_csprng_construction {U1 U2 : Type} (P1 : ProtoSpec U1) (P2 : ProtoSpec U2)
    (io io1 io2 : IOPattern) (s s1 s2 : Nat → Nat)
    (h : io1.asBytes ≠ io2.asBytes) :
    (Merlin.new P1 io s).rng.sponge = Keccak.defaultK.absorbU io.asBytes ∧
    (Merlin.new P1 io s).rng.sponge = (Merlin.new P2 io s).rng.sponge ∧
    io.asBytes.take io.domsep.length = io.domsep ∧
    (Merlin.new P1 io1 s1).rng.sponge ≠ (Merlin.new P2 io2 s2).rng.sponge := by
  refine ⟨rfl, rfl, ?_, ?_⟩
  · simp [IOPattern.asBytes, List.take_left]
  · intro hc
    apply h
    have h2 := congrArg HSponge.journal hc
    simpa [Merlin.new, Keccak.defaultK, HSponge.absorbU] using h2

/-- Witness for C8 with `tio` and `tio2`, whose serializations differ. -/
theorem C8_witness :
    tio.asBytes ≠ tio2.asBytes ∧
    ((Merlin.new bspec tio zstream).rng.sponge = Keccak.defaultK.absorbU tio.asBytes ∧
      (Merlin.new bspec tio zstream).rng.sponge = (Merlin.new fspec tio zstream).rng.sponge ∧
      tio.asBytes.take tio.domsep.length = tio.domsep ∧
      (Merlin.new bspec tio zstream).rng.sponge ≠ (Merlin.new fspec tio2 zstream).rng.sponge) :=
  ⟨by decide,
    C8_csprng_construction bspec fspec tio tio tio2 zstream zstream zstream (by decide)⟩

/-- Claim C9: `fill_challenge_units` only squeezes the SAFE and returns
the squeezed units, leaving the transcript and the CSPRNG untouched;
`ratchet` only ratchets the SAFE, leaving the transcript and the CSPRNG
untouched. -/
theorem C9_frame {U : Type} (P : ProtoSpec U) (m mb : Merlin U) (n : Nat) (out : List U)
    (h1 : (m.fill_challenge_units P n).2 = Except.ok out)
    (h2 : (mb.ratchetM).2 = Except.ok ()) :
    (m.fill_challenge_units P n).1.transcript = m.transcript ∧
    (m.fill_challenge_units P n).1.rng = m.rng ∧
    (m.fill_challenge_units P n).1.safe = (m.safe.squeeze P n).1 ∧
    (m.safe.squeeze P n).2 = Except.ok out ∧
    (mb.ratchetM).1.transcript = mb.transcript ∧
    (mb.ratchetM).1.rng = mb.rng ∧
    (mb.ratchetM).1.safe = (mb.safe.ratchetS).1 :=
  ⟨rfl, rfl, rfl, h1, rfl, rfl, rfl⟩

/-- Witness for C9: a squeeze on `mSq` and a ratchet on `mR`. -/
theorem C9_witness :
    (mSq.fill_challenge_units bspec 2).2 = Except.ok outC9 ∧
    (mR.ratchetM).2 = Except.ok () ∧
    ((mSq.fill_challenge_units bspec 2).1.transcript = mSq.transcript ∧
      (mSq.fill_challenge_units bspec 2).1.rng = mSq.rng ∧
      (mSq.fill_challenge_units bspec 2).1.safe = (mSq.safe.squeeze bspec 2).1 ∧
      (mSq.safe.squeeze bspec 2).2 = Except.ok outC9 ∧
      (mR.ratchetM).1.transcript = mR.transcript ∧
      (mR.ratchetM).1.rng = mR.rng ∧
      (mR.ratchetM).1.safe = (mR.safe.ratchetS).1) :=
  ⟨rfl, rfl, C9_frame bspec mSq mR 2 outC9 rfl rfl⟩

/-- Claim C10: a failed `add_units` or `public_units` leaves the
transcript and the CSPRNG exactly as they were — the SAFE pattern check
runs before any byte is appended or absorbed. -/
theorem C10_error_frame {U : Type} (P : ProtoSpec U) (m ma mp : Merlin U)
    (x y : List U) (e1 e2 : IOPatternError)
    (h1 : m.add_units P x = some (ma, Except.error e1))
    (h2 : m.public_units P y = some (mp, Except.error e2)) :
    ma.transcript = m.transcript ∧ ma.rng = m.rng ∧
    mp.transcript = m.transcript ∧ mp.rng = m.rng := by
  have hma := add_units_err_elim P m ma x e1 h1
  have hmp := add_units_err_elim P m mp y e2 (public_units_err_elim P m mp y e2 h2)
  rw [hma, hmp]
  exact ⟨rfl, rfl, rfl, rfl⟩

/-- Witness for C10: both calls fail on `mSq`, whose pattern expects a
squeeze, and the state components are untouched. -/
theorem C10_witness :
    mSq.add_units bspec [1] = some (mSq, Except.error IOPatternError.invalidOp) ∧
    mSq.public_units bspec [2] = some (mSq, Except.error IOPatternError.invalidOp) ∧
    (mSq.transcript = mSq.transcript ∧ mSq.rng = mSq.rng ∧
      mSq.transcript = mSq.transcript ∧ mSq.rng = mSq.rng) :=
  ⟨rfl, rfl,
    C10_error_frame bspec mSq mSq mSq [1] [2] IOPatternError.invalidOp
      IOPatternError.invalidOp rfl rfl⟩
